import Mathlib

/-
Shallow embedding of the indexing-and-scoring core of an emotion-aware
information-retrieval system over Project Gutenberg texts.

Conventions used throughout:
* Python dicts are embedded as functions into Option (absence = none); where a
  dict's insertion order matters it is embedded as an association list.
* Python float arithmetic is embedded as exact arithmetic: rationals where the
  code only adds, subtracts, multiplies, divides and compares, reals where
  sqrt and log occur.
* Python str methods (lower, isalpha) are modelled on the character list of
  the string, which is faithful on the ASCII inputs exercised here.
-/

/-! ### 2_corpus_processor.py -/

/-- Python str.isalpha of 2_corpus_processor.py line 93: nonempty and every
character alphabetic (the ASCII fragment of the Unicode predicate). -/
def pyIsAlpha (s : String) : Bool :=
  !s.data.isEmpty && s.data.all Char.isAlpha

/-- Python str.lower, written through the character list so that the kernel
can evaluate it. -/
def pyLower (s : String) : String :=
  String.mk (s.data.map Char.toLower)

/-- process_text_pipeline of 2_corpus_processor.py lines 69-96: tokenize with
the external NLTK word_tokenize (passed as the parameter tok), lowercase each
token, and keep only the alphabetic tokens. -/
def process_text_pipeline (tok : String → List String) (raw_text : String) : List String :=
  ((tok raw_text).map pyLower).filter pyIsAlpha

/-- Modelled from the spec: the build-time tokenizer is NLTK word_tokenize,
which is external to this repository (the spec only fixes the pipeline around
it: tokenize, lowercase, alphabetic-only). Only the behavior needed below is
modelled: the Treebank contraction rule splits "don't" into "do" and "n't",
and a single ordinary word stays one token. -/
def nltkWordTokenize (s : String) : List String :=
  if s = "don't" then ["do", "n't"] else [s]

/-! ### 5_ir_system.py, query tokenization (process_query line 164) -/

/-- Python regex word character (for the lowered ASCII query strings
considered here): a letter, a digit or an underscore. -/
def pyIsWordChar (c : Char) : Bool :=
  c.isAlphanum || c == '_'

/-- Lowercase ASCII letter: the character class of the regex [a-z]. -/
def isLowerAZ (c : Char) : Bool :=
  decide ('a' ≤ c) && decide (c ≤ 'z')

/-- Maximal word-character runs of a character list, i.e. the pieces between
the non-word characters. -/
def wordRuns (l : List Char) : List (List Char) :=
  (l.splitOnP (fun c => !pyIsWordChar c)).filter (fun r => !r.isEmpty)

/-- Query-time tokenization of process_query, 5_ir_system.py line 164:
re.findall of a lowercase-letter run between word boundaries, applied to the
lowered query. A match of that pattern is exactly a maximal word-character
run made of lowercase letters: any shorter candidate run has a word character
on its frontier, where the word boundary fails, so runs containing a digit,
an underscore or a non-ASCII word character yield no match at all. -/
def processQueryRaw (query_text : String) : List String :=
  ((wordRuns (pyLower query_text).data).filter (fun r => r.all isLowerAZ)).map List.asString

/-! ### 3_indexer.py -/

/-- State built by build_index, 3_indexer.py lines 69-71: the inverted index
(term, doc) -> raw frequency, the document-frequency table and the document
length table. Dicts are functions into Option; none = key absent. -/
structure IndexState where
  inverted_index : String → String → Option ℕ
  doc_frequency : String → ℕ
  doc_lengths : String → Option ℕ

def initIndexState : IndexState :=
  { inverted_index := fun _ _ => none
    doc_frequency := fun _ => 0
    doc_lengths := fun _ => none }

/-- Body of the inner loop of build_index, 3_indexer.py lines 80-82: store
the posting frequency of one distinct term of the document and bump that
term's document frequency once. -/
def insertTerm (d : String) (tokens : List String) (st : IndexState) (t : String) : IndexState :=
  { st with
    inverted_index := fun t2 d2 =>
      if t2 = t ∧ d2 = d then some (tokens.count t) else st.inverted_index t2 d2
    doc_frequency := fun t2 =>
      if t2 = t then st.doc_frequency t2 + 1 else st.doc_frequency t2 }

/-- One iteration of the document loop of build_index, 3_indexer.py lines
74-82: record the document's token count as its length, then fold the
document's distinct terms (Counter(tokens).items()) through insertTerm. -/
def processDoc (st : IndexState) (d : String) (tokens : List String) : IndexState :=
  let st1 : IndexState := { st with
    doc_lengths := fun d2 => if d2 = d then some tokens.length else st.doc_lengths d2 }
  tokens.dedup.foldl (insertTerm d tokens) st1

/-- build_index, 3_indexer.py lines 74-82, over a corpus given as an
association list (document id, token sequence); the source corpus is a dict,
so document ids are assumed distinct where a claim needs it. -/
def build_index (corpus : List (String × List String)) : IndexState :=
  corpus.foldl (fun st p => processDoc st p.1 p.2) initIndexState

/-- idf_scores of build_index, 3_indexer.py lines 90-92: an entry for every
term of the document-frequency table (hence df >= 1), with value
log(N / (df + 1)) where N = len(corpus). -/
noncomputable def idf_scores (corpus : List (String × List String)) (t : String) : Option ℝ :=
  if (build_index corpus).doc_frequency t = 0 then none
  else some (Real.log ((corpus.length : ℝ) / (((build_index corpus).doc_frequency t : ℝ) + 1)))

/-! ### Lemmas about the index builder -/

theorem foldl_insertTerm_inverted_index (ts : List String) (d : String) (tokens : List String)
    (st : IndexState) (t2 d2 : String) :
    (ts.foldl (insertTerm d tokens) st).inverted_index t2 d2 =
      if t2 ∈ ts ∧ d2 = d then some (tokens.count t2) else st.inverted_index t2 d2 := by
  induction ts generalizing st with
  | nil => simp
  | cons a ts ih =>
    rw [List.foldl_cons, ih]
    by_cases h1 : t2 = a
    · subst h1
      by_cases h2 : d2 = d
      · by_cases h3 : t2 ∈ ts <;> simp [insertTerm, h2, h3]
      · simp [insertTerm, h2]
    · by_cases h3 : t2 ∈ ts
      · by_cases h2 : d2 = d <;> simp [insertTerm, h1, h2, h3]
      · by_cases h2 : d2 = d <;> simp [insertTerm, h1, h2, h3]

theorem foldl_insertTerm_doc_frequency (ts : List String) (d : String) (tokens : List String)
    (st : IndexState) (t2 : String) :
    (ts.foldl (insertTerm d tokens) st).doc_frequency t2 =
      st.doc_frequency t2 + ts.count t2 := by
  induction ts generalizing st with
  | nil => simp
  | cons a ts ih =>
    rw [List.foldl_cons, ih]
    by_cases h1 : t2 = a
    · subst h1; simp [insertTerm, List.count_cons]; omega
    · simp [insertTerm, h1, List.count_cons, Ne.symm h1]

theorem foldl_insertTerm_doc_lengths (ts : List String) (d : String) (tokens : List String)
    (st : IndexState) :
    (ts.foldl (insertTerm d tokens) st).doc_lengths = st.doc_lengths := by
  induction ts generalizing st with
  | nil => rfl
  | cons a ts ih => rw [List.foldl_cons, ih]; rfl

theorem processDoc_inverted_index (st : IndexState) (d : String) (tokens : List String)
    (t2 d2 : String) :
    (processDoc st d tokens).inverted_index t2 d2 =
      if t2 ∈ tokens ∧ d2 = d then some (tokens.count t2) else st.inverted_index t2 d2 := by
  unfold processDoc
  rw [foldl_insertTerm_inverted_index]
  simp [List.mem_dedup]

theorem processDoc_doc_frequency (st : IndexState) (d : String) (tokens : List String)
    (t2 : String) :
    (processDoc st d tokens).doc_frequency t2 =
      st.doc_frequency t2 + (if t2 ∈ tokens then 1 else 0) := by
  unfold processDoc
  rw [foldl_insertTerm_doc_frequency, List.count_dedup]

theorem processDoc_doc_lengths (st : IndexState) (d : String) (tokens : List String)
    (d2 : String) :
    (processDoc st d tokens).doc_lengths d2 =
      if d2 = d then some tokens.length else st.doc_lengths d2 := by
  unfold processDoc
  rw [foldl_insertTerm_doc_lengths]

theorem build_foldl_doc_frequency (corpus : List (String × List String)) (st : IndexState)
    (t : String) :
    (corpus.foldl (fun st p => processDoc st p.1 p.2) st).doc_frequency t =
      st.doc_frequency t + corpus.countP (fun p => decide (t ∈ p.2)) := by
  induction corpus generalizing st with
  | nil => simp
  | cons a l ih =>
    rw [List.foldl_cons, ih, processDoc_doc_frequency, List.countP_cons]
    by_cases h : t ∈ a.2
    · simp [h]
      omega
    · simp [h]

theorem build_foldl_doc_lengths_not_mem (corpus : List (String × List String)) (st : IndexState)
    (d : String) (h : d ∉ corpus.map Prod.fst) :
    (corpus.foldl (fun st p => processDoc st p.1 p.2) st).doc_lengths d = st.doc_lengths d := by
  induction corpus generalizing st with
  | nil => rfl
  | cons a l ih =>
    simp only [List.map_cons, List.mem_cons, not_or] at h
    rw [List.foldl_cons, ih _ h.2, processDoc_doc_lengths, if_neg h.1]

theorem build_foldl_inverted_index_not_mem (corpus : List (String × List String))
    (st : IndexState) (t d : String) (h : d ∉ corpus.map Prod.fst) :
    (corpus.foldl (fun st p => processDoc st p.1 p.2) st).inverted_index t d =
      st.inverted_index t d := by
  induction corpus generalizing st with
  | nil => rfl
  | cons a l ih =>
    simp only [List.map_cons, List.mem_cons, not_or] at h
    rw [List.foldl_cons, ih _ h.2, processDoc_inverted_index]
    simp [h.1]

theorem build_foldl_mem (corpus : List (String × List String)) (st : IndexState)
    (d : String) (tokens : List String)
    (hnd : (corpus.map Prod.fst).Nodup) (hmem : (d, tokens) ∈ corpus) :
    (corpus.foldl (fun st p => processDoc st p.1 p.2) st).doc_lengths d = some tokens.length ∧
    ∀ t, (corpus.foldl (fun st p => processDoc st p.1 p.2) st).inverted_index t d =
      if t ∈ tokens then some (tokens.count t) else st.inverted_index t d := by
  induction corpus generalizing st with
  | nil => cases hmem
  | cons a l ih =>
    rw [List.map_cons, List.nodup_cons] at hnd
    rcases List.mem_cons.mp hmem with heq | hmem2
    · have hd : d ∉ l.map Prod.fst := by rw [← heq] at hnd; exact hnd.1
      constructor
      · rw [List.foldl_cons, build_foldl_doc_lengths_not_mem l _ d hd,
          processDoc_doc_lengths, ← heq]
        simp
      · intro t
        rw [List.foldl_cons, build_foldl_inverted_index_not_mem l _ t d hd,
          processDoc_inverted_index, ← heq]
        by_cases h3 : t ∈ tokens <;> simp [h3]
    · have hda : a.1 ≠ d := by
        intro hcontra
        exact hnd.1 (hcontra ▸ (List.mem_map.mpr ⟨(d, tokens), hmem2, rfl⟩))
      have := ih (processDoc st a.1 a.2) hnd.2 hmem2
      refine ⟨by rw [List.foldl_cons]; exact this.1, fun t => ?_⟩
      rw [List.foldl_cons, this.2 t, processDoc_inverted_index]
      simp [Ne.symm hda]

/-! ### 4_chunk_level_emotion_analyzer.py -/

/-- NEGATION_TERMS of 4_chunk_level_emotion_analyzer.py lines 47-52. -/
def NEGATION_TERMS : List String :=
  ["not", "never", "no", "nothing", "neither", "nor",
   "hardly", "scarcely", "barely", "didnt", "dont",
   "doesnt", "wont", "wouldnt", "couldnt", "shouldnt",
   "cant", "cannot", "n't"]

/-- LOOKBACK_WINDOW of 4_chunk_level_emotion_analyzer.py line 53. -/
def LOOKBACK_WINDOW : ℕ := 3

/-- Negation test of get_negation_aware_emotions, lines 72-80: scan
tokens[max(0, i - LOOKBACK_WINDOW) : i] for a negation term (Nat subtraction
is the max-with-0 of the Python slice start). -/
def isNegatedAt (tokens : List String) (i : ℕ) : Bool :=
  ((tokens.take i).drop (i - LOOKBACK_WINDOW)).any (fun w => NEGATION_TERMS.contains w)

/-- get_negation_aware_emotions of 4_chunk_level_emotion_analyzer.py lines
55-87, parameterized by the external NRC lexicon. Modelled from the spec: the
external NRCLex raw_emotion_scores of a single word is its set of emotion
tags, each scored 1, so the lexicon is a function from a word to its tag list
and every tag of a non-negated word adds 1. The returned defaultdict(int) is
a total function with default 0. -/
def get_negation_aware_emotions (lex : String → List String) (tokens : List String) :
    String → ℕ :=
  tokens.enum.foldl (fun vec p =>
    if lex p.2 = [] then vec
    else if isNegatedAt tokens p.1 then vec
    else fun e => if e ∈ lex p.2 then vec e + 1 else vec e)
    (fun _ => 0)

/-- Truthiness of the raw_scores dict in analyze_chunks line 108: the
defaultdict built by get_negation_aware_emotions is nonempty exactly when
some token has a tag and is not negated (such a token adds a key). -/
def hasEmotion (lex : String → List String) (tokens : List String) : Bool :=
  tokens.enum.any (fun p => !(lex p.2).isEmpty && !isNegatedAt tokens p.1)

/-- analyze_chunks of 4_chunk_level_emotion_analyzer.py lines 103-109: one
(doc_id, emotion vector) pair per segment, kept only when the vector is
nonempty (the append happens under the "if raw_scores:" test). -/
def analyze_chunks (lex : String → List String) (corpus : List (String × List String)) :
    List (String × (String → ℕ)) :=
  corpus.filterMap (fun p =>
    if hasEmotion lex p.2 then some (p.1, get_negation_aware_emotions lex p.2) else none)

/-! ### 4.5_z_score_generator.py -/

/-- The emotion list of 4.5_z_score_generator.py lines 58-59. -/
def EMOTIONS : List String :=
  ["joy", "sadness", "anger", "fear", "trust", "disgust", "anticipation", "surprise"]

/-- Density list collected for one emotion, 4.5_z_score_generator.py lines
66-71: count / doc_lengths.get(doc_id, 1) over the loaded emotion records. -/
def densities (emotion_data : List (String × (String → ℕ)))
    (doc_lengths : String → Option ℕ) (emo : String) : List ℚ :=
  emotion_data.map (fun p => ((p.2 emo : ℚ)) / (((doc_lengths p.1).getD 1 : ℕ) : ℚ))

/-- np.mean of a value list (population mean). -/
noncomputable def npMean (l : List ℚ) : ℝ :=
  ((l.sum : ℚ) : ℝ) / (l.length : ℝ)

/-- np.std of a value list (population standard deviation: the square root of
the mean squared deviation). -/
noncomputable def npStd (l : List ℚ) : ℝ :=
  Real.sqrt ((l.map (fun x => ((x : ℝ) - npMean l) ^ 2)).sum / (l.length : ℝ))

/-- generate_z_scores of 4.5_z_score_generator.py lines 73-86: for each of the
eight emotions, the mean and the standard deviation of its density list. -/
noncomputable def generate_z_scores (emotion_data : List (String × (String → ℕ)))
    (doc_lengths : String → Option ℕ) (emo : String) : Option (ℝ × ℝ) :=
  if emo ∈ EMOTIONS then
    some (npMean (densities emotion_data doc_lengths emo),
          npStd (densities emotion_data doc_lengths emo))
  else none

/-- The statistics population the spec prescribes, stated from the spec's
words for the refinement comparison of C8: the density
count / max(length, 1) of every segment of the corpus, the segments with an
empty emotion vector included. -/
def specDensitiesAllSegments (lex : String → List String)
    (corpus : List (String × List String)) (doc_lengths : String → Option ℕ)
    (emo : String) : List ℚ :=
  corpus.map (fun p =>
    ((get_negation_aware_emotions lex p.2 emo : ℚ)) /
      (((max ((doc_lengths p.1).getD 1) 1 : ℕ) : ℚ)))

/-! ### 5_ir_system.py -/

/-- One emotion's corpus statistics as loaded from emotion_stats.pkl
(5_ir_system.py line 129), embedded with exact rationals. -/
structure EStats where
  mean : ℚ
  std : ℚ

/-- The loaded state of IRSystem (5_ir_system.py lines 75-80 and 102-131).
Posting dicts keep their insertion order, so they are association lists; an
emotion vector is its total get-with-default-0 function. -/
structure IRSys where
  inverted_index : String → Option (List (String × ℕ))
  idf_scores : String → Option ℝ
  doc_lengths : String → Option ℕ
  emotion_data : String → Option (String → ℕ)
  emotion_stats : String → Option EStats
  doc_ids : List String

/-- Python defaultdict(float) update doc_scores[doc_id] += score of
5_ir_system.py line 198, on an insertion-ordered association list. -/
def addScore (acc : List (String × ℝ)) (d : String) (s : ℝ) : List (String × ℝ) :=
  if acc.any (fun p => decide (p.1 = d)) then
    acc.map (fun p => if p.1 = d then (p.1, p.2 + s) else p)
  else acc ++ [(d, s)]

/-- The running score of a document in the association list (0.0 when the key
is absent, matching defaultdict(float)). -/
def scoreOf (acc : List (String × ℝ)) (d : String) : ℝ :=
  match acc.find? (fun p => decide (p.1 = d)) with
  | some p => p.2
  | none => 0

/-- One iteration of the token loop of text_search, 5_ir_system.py lines
191-198: a token not in the inverted index contributes nothing; otherwise
tf * idf_scores.get(token, 0) is added to every posting document's score. -/
def accumToken (sys : IRSys) (acc : List (String × ℝ)) (t : String) : List (String × ℝ) :=
  match sys.inverted_index t with
  | none => acc
  | some postings =>
      postings.foldl (fun a pd => addScore a pd.1 ((pd.2 : ℝ) * (sys.idf_scores t).getD 0)) acc

/-- The length normalization factor of text_search, 5_ir_system.py lines
203-205: sqrt of the document length, floored at 1. -/
noncomputable def normFactor (length : ℕ) : ℝ :=
  if Real.sqrt (length : ℝ) < 1 then 1 else Real.sqrt (length : ℝ)

/-- Python sorted(key=lambda x: x[1], reverse=True) of 5_ir_system.py line
210: a stable sort, descending in the score component. -/
noncomputable def sortByScoreDesc (l : List (String × ℝ)) : List (String × ℝ) :=
  l.mergeSort (fun a b => decide (b.2 ≤ a.2))

/-- text_search of 5_ir_system.py lines 174-211, given the processed token
list: empty token lists return [], otherwise tf * idf scores are accumulated
per document, normalized by normFactor of doc_lengths.get(doc_id, 1), and
sorted descending by score. -/
noncomputable def text_search_scores (sys : IRSys) (tokens : List String) :
    List (String × ℝ) :=
  if tokens = [] then []
  else
    sortByScoreDesc ((tokens.foldl (accumToken sys) []).map (fun p =>
      (p.1, p.2 / normFactor ((sys.doc_lengths p.1).getD 1))))

/-- process_query of 5_ir_system.py lines 153-172: the regex tokens of the
lowered query joined with each raw token's single-word WordNet synonyms (the
external synonym source is the parameter syn). The Python set's iteration
order is unspecified; it is represented up to removal of duplicates. -/
def process_query (syn : String → List String) (query_text : String) : List String :=
  (processQueryRaw query_text ++ (processQueryRaw query_text).flatMap syn).dedup

/-- text_search on a raw query string: process_query, then scoring. -/
noncomputable def text_search (sys : IRSys) (syn : String → List String)
    (query_text : String) : List (String × ℝ) :=
  text_search_scores sys (process_query syn query_text)

/-- Z-score of filter_by_emotion, 5_ir_system.py lines 251-256: the
standardized density when statistics exist for the emotion and their std is
positive, and exactly 0 otherwise (a total rational, never NaN or infinite). -/
def zScoreOf (stats : Option EStats) (density : ℚ) : ℚ :=
  match stats with
  | some st => if 0 < st.std then (density - st.mean) / st.std else 0
  | none => 0

/-- Candidate processing of one loop iteration of filter_by_emotion,
5_ir_system.py lines 243-268: a candidate without an emotion record yields
nothing; otherwise its density, z-score, clamped emotion score and combined
score are computed, and the triple (doc, combined, raw z) is kept when the
raw count passes min_score. -/
def candidateEntry (sys : IRSys) (stats : Option EStats) (emotion : String) (min_score : ℕ)
    (text_weight emotion_weight : ℚ) (p : String × ℚ) : Option (String × ℚ × ℚ) :=
  match sys.emotion_data p.1 with
  | none => none
  | some vec =>
      let density : ℚ := ((vec emotion : ℚ)) / (((sys.doc_lengths p.1).getD 1 : ℕ) : ℚ)
      let z := zScoreOf stats density
      let combined := p.2 * text_weight + (max 0 z) * emotion_weight
      if min_score ≤ vec emotion then some (p.1, combined, z) else none

/-- Python sorted(key=lambda x: x[1], reverse=True) of 5_ir_system.py line
270 on (doc, combined, z) triples: stable, descending in combined score. -/
def sortByCombinedDesc (l : List (String × ℚ × ℚ)) : List (String × ℚ × ℚ) :=
  l.mergeSort (fun a b => decide (b.2.1 ≤ a.2.1))

/-- filter_by_emotion of 5_ir_system.py lines 213-270: candidates are the
text results, or every known document with text score 0 when the text result
list is empty; the per-candidate loop appends exactly the candidateEntry
values, and the result is sorted descending by combined score. -/
def filter_by_emotion (sys : IRSys) (text_results : List (String × ℚ)) (emotion : String)
    (min_score : ℕ) (text_weight emotion_weight : ℚ) : List (String × ℚ × ℚ) :=
  let candidates := if text_results = [] then sys.doc_ids.map (fun d => (d, (0 : ℚ)))
    else text_results
  sortByCombinedDesc (candidates.filterMap
    (candidateEntry sys (sys.emotion_stats emotion) emotion min_score text_weight emotion_weight))

/-! ### Claim theorems: index builder -/

/-- Scenario corpus of the spec's testable property list: three documents
with their token sequences. -/
def scenarioA : List (String × List String) :=
  [("A", ["fear", "fear", "joy"]), ("B", ["joy", "joy"]), ("C", ["trust"])]

/-- C5: in the built index, every posting frequency inverted_index[t][d] is
the exact occurrence count of t in the token sequence of d (terms absent from
d have no posting), and the posting frequencies of the distinct terms
appearing in d sum to the stored length doc_lengths[d]. -/
theorem C5_postings_exact_and_sum_to_length
    (corpus : List (String × List String)) (d : String) (tokens : List String)
    (hnd : (corpus.map Prod.fst).Nodup) (hmem : (d, tokens) ∈ corpus) :
    (∀ t, t ∈ tokens → (build_index corpus).inverted_index t d = some (tokens.count t)) ∧
    (∀ t, t ∉ tokens → (build_index corpus).inverted_index t d = none) ∧
    (build_index corpus).doc_lengths d = some tokens.length ∧
    (tokens.dedup.map (fun t => ((build_index corpus).inverted_index t d).getD 0)).sum
      = tokens.length := by
  obtain ⟨hlen, hinv⟩ := build_foldl_mem corpus initIndexState d tokens hnd hmem
  unfold build_index
  refine ⟨fun t ht => ?_, fun t ht => ?_, hlen, ?_⟩
  · rw [hinv t, if_pos ht]
  · rw [hinv t, if_neg ht]; rfl
  · have hmap : ∀ t ∈ tokens.dedup,
        ((corpus.foldl (fun st p => processDoc st p.1 p.2) initIndexState).inverted_index
          t d).getD 0 = tokens.count t := by
      intro t ht
      rw [List.mem_dedup] at ht
      rw [hinv t, if_pos ht]
      rfl
    rw [List.map_congr_left hmap]
    exact List.sum_map_count_dedup_eq_length tokens

/-- C5 witness: the scenario corpus, at document A. -/
theorem C5_witness :
    (build_index scenarioA).inverted_index "fear" "A" = some 2 ∧
    (build_index scenarioA).doc_lengths "A" = some 3 ∧
    (["fear", "fear", "joy"].dedup.map
      (fun t => ((build_index scenarioA).inverted_index t "A").getD 0)).sum = 3 := by
  obtain ⟨h1, _, h3, h4⟩ := C5_postings_exact_and_sum_to_length scenarioA "A"
    ["fear", "fear", "joy"] (by decide) (by decide)
  exact ⟨h1 "fear" (by decide), h3, h4⟩

/-- C6 counterexample: build_index stores length 0, not the floored value 1,
for a document whose token sequence is empty. -/
theorem C6_counterexample :
    (build_index [("d", ([] : List String))]).doc_lengths "d" = some 0 ∧
    (build_index [("d", ([] : List String))]).doc_lengths "d" ≠ some 1 := by
  constructor
  · decide
  · decide

/-- C6 amended: the recorded document length is exactly the token count - an
empty document is stored with length 0 and no flooring to 1 happens at build
time; the division guard lives downstream instead, the sqrt-length
normalization factor of text_search being always at least 1. -/
theorem C6_amended_exact_length
    (corpus : List (String × List String)) (d : String) (tokens : List String)
    (hnd : (corpus.map Prod.fst).Nodup) (hmem : (d, tokens) ∈ corpus) :
    (build_index corpus).doc_lengths d = some tokens.length ∧
    ∀ n : ℕ, 1 ≤ normFactor n := by
  refine ⟨(build_foldl_mem corpus initIndexState d tokens hnd hmem).1, fun n => ?_⟩
  unfold normFactor
  by_cases h : Real.sqrt (n : ℝ) < 1
  · rw [if_pos h]
  · rw [if_neg h]
    exact le_of_not_lt h

/-- C6 amended witness: the one-empty-document corpus. -/
theorem C6_amended_witness :
    (build_index [("d", ([] : List String))]).doc_lengths "d" = some 0 ∧
    1 ≤ normFactor 0 := by
  obtain ⟨h1, h2⟩ := C6_amended_exact_length [("d", ([] : List String))] "d" []
    (by decide) (by decide)
  exact ⟨h1, h2 0⟩

/-- C4: for every term t present in some document, the stored IDF is
ln(N / (df + 1)) where N is the corpus size and df counts the documents
containing t once each; the argument of the logarithm is strictly positive
(so the value is the logarithm of a positive real, finite also when df = N),
and df ↦ ln(N / (df + 1)) is strictly decreasing. -/
theorem C4_idf_formula (corpus : List (String × List String)) (d t : String)
    (tokens : List String) (_hnd : (corpus.map Prod.fst).Nodup)
    (hmem : (d, tokens) ∈ corpus) (ht : t ∈ tokens) :
    (build_index corpus).doc_frequency t = corpus.countP (fun p => decide (t ∈ p.2)) ∧
    idf_scores corpus t =
      some (Real.log ((corpus.length : ℝ) /
        (((build_index corpus).doc_frequency t : ℝ) + 1))) ∧
    0 < (corpus.length : ℝ) / (((build_index corpus).doc_frequency t : ℝ) + 1) ∧
    ∀ df1 df2 : ℕ, df1 < df2 →
      Real.log ((corpus.length : ℝ) / ((df2 : ℝ) + 1)) <
        Real.log ((corpus.length : ℝ) / ((df1 : ℝ) + 1)) := by
  have hdf : (build_index corpus).doc_frequency t =
      corpus.countP (fun p => decide (t ∈ p.2)) := by
    unfold build_index
    rw [build_foldl_doc_frequency]
    simp [initIndexState]
  have hdfpos : 0 < (build_index corpus).doc_frequency t := by
    rw [hdf]
    exact List.countP_pos_iff.mpr ⟨(d, tokens), hmem, by simpa using ht⟩
  have hNpos : (0 : ℝ) < (corpus.length : ℝ) := by
    have := List.length_pos.mpr (List.ne_nil_of_mem hmem)
    exact_mod_cast this
  refine ⟨hdf, ?_, ?_, ?_⟩
  · unfold idf_scores
    rw [if_neg (Nat.pos_iff_ne_zero.mp hdfpos)]
  · exact div_pos hNpos (by positivity)
  · intro df1 df2 h
    refine Real.log_lt_log (div_pos hNpos (by positivity)) ?_
    refine div_lt_div_of_pos_left hNpos (by positivity) ?_
    have : (df1 : ℝ) < (df2 : ℝ) := by exact_mod_cast h
    linarith

/-- C4 witness: the scenario corpus, term "fear" with df = 1 and N = 3. -/
theorem C4_witness :
    (build_index scenarioA).doc_frequency "fear" = 1 ∧
    idf_scores scenarioA "fear" = some (Real.log ((3 : ℝ) / 2)) := by
  obtain ⟨_, h2, _, _⟩ := C4_idf_formula scenarioA "A" "fear" ["fear", "fear", "joy"]
    (by decide) (by decide) (by decide)
  have hdf : (build_index scenarioA).doc_frequency "fear" = 1 := by decide
  have hlen : (scenarioA.length : ℝ) = 3 := by norm_num [scenarioA]
  refine ⟨hdf, ?_⟩
  rw [h2, hdf, hlen]
  norm_num

/-- addScore adds its increment to the running score of the target document
(whether the key is already present or not). -/
theorem scoreOf_addScore (acc : List (String × ℝ)) (d : String) (s : ℝ) :
    scoreOf (addScore acc d s) d = scoreOf acc d + s := by
  induction acc with
  | nil => simp [addScore, scoreOf]
  | cons a l ih =>
    by_cases h1 : a.1 = d
    · simp [addScore, scoreOf, List.any_cons, h1, List.find?]
    · have hstep : addScore (a :: l) d s =
          if l.any (fun p => decide (p.1 = d)) then
            a :: l.map (fun p => if p.1 = d then (p.1, p.2 + s) else p)
          else (a :: l) ++ [(d, s)] := by
        simp [addScore, List.any_cons, h1]
        by_cases h2 : l.any (fun p => decide (p.1 = d)) <;> simp [h2, h1]
      by_cases h2 : l.any (fun p => decide (p.1 = d))
      · rw [hstep, if_pos h2]
        have hmap : l.map (fun p => if p.1 = d then (p.1, p.2 + s) else p) = addScore l d s := by
          simp [addScore, h2]
        rw [scoreOf, List.find?_cons_of_neg _ (by simpa using h1), hmap,
          scoreOf, List.find?_cons_of_neg _ (by simpa using h1)]
        exact ih
      · rw [hstep, if_neg h2]
        have hnone : l.find? (fun p => decide (p.1 = d)) = none := by
          rw [List.find?_eq_none]
          intro x hx
          by_contra hc
          exact h2 (List.any_eq_true.mpr ⟨x, hx, by simpa using hc⟩)
        have happ : (a :: l) ++ [(d, s)] = a :: (l ++ [(d, s)]) := rfl
        rw [happ, scoreOf, List.find?_cons_of_neg _ (by simpa using h1),
          scoreOf, List.find?_cons_of_neg _ (by simpa using h1),
          List.find?_append, hnone]
        simp [scoreOf, List.find?]

/-- C10: a term occurring in every document of a nonempty corpus receives the
strictly negative stored IDF ln(N / (N + 1)), and every tf * idf
accumulation step of text_search for such a term strictly lowers the
document's running score. -/
theorem C10_ubiquitous_term_negative_idf (corpus : List (String × List String)) (t : String)
    (hne : corpus ≠ []) (hall : ∀ p ∈ corpus, t ∈ p.2) :
    (build_index corpus).doc_frequency t = corpus.length ∧
    idf_scores corpus t =
      some (Real.log ((corpus.length : ℝ) / ((corpus.length : ℝ) + 1))) ∧
    Real.log ((corpus.length : ℝ) / ((corpus.length : ℝ) + 1)) < 0 ∧
    ∀ (acc : List (String × ℝ)) (d : String) (tf : ℕ), 1 ≤ tf →
      scoreOf (addScore acc d ((tf : ℝ) *
        Real.log ((corpus.length : ℝ) / ((corpus.length : ℝ) + 1)))) d < scoreOf acc d := by
  have hdf : (build_index corpus).doc_frequency t = corpus.length := by
    unfold build_index
    rw [build_foldl_doc_frequency]
    simp only [initIndexState, Nat.zero_add]
    exact List.countP_eq_length.mpr (fun p hp => by simpa using hall p hp)
  have hNpos : (0 : ℝ) < (corpus.length : ℝ) := by
    have := List.length_pos.mpr hne
    exact_mod_cast this
  have hlog : Real.log ((corpus.length : ℝ) / ((corpus.length : ℝ) + 1)) < 0 := by
    refine Real.log_neg (div_pos hNpos (by positivity)) ?_
    rw [div_lt_one (by positivity)]
    linarith
  refine ⟨hdf, ?_, hlog, ?_⟩
  · unfold idf_scores
    have hlen0 : corpus.length ≠ 0 := fun h => hne (List.length_eq_zero.mp h)
    rw [hdf, if_neg hlen0]
  · intro acc d tf htf
    rw [scoreOf_addScore]
    have htfpos : (0 : ℝ) < (tf : ℝ) := by exact_mod_cast htf
    have := mul_neg_of_pos_of_neg htfpos hlog
    linarith

/-- Two-document corpus in which the term "x" is ubiquitous. -/
def corpusC10 : List (String × List String) := [("a", ["x"]), ("b", ["x"])]

/-- C10 witness: in corpusC10 the term "x" has df = N = 2 and the stored IDF
ln(2/3) is strictly negative. -/
theorem C10_witness :
    idf_scores corpusC10 "x" = some (Real.log ((2 : ℝ) / 3)) ∧
    Real.log ((2 : ℝ) / 3) < 0 := by
  obtain ⟨_, h2, h3, _⟩ := C10_ubiquitous_term_negative_idf corpusC10 "x"
    (by decide) (by decide)
  have hlen : (corpusC10.length : ℝ) = 2 := by norm_num [corpusC10]
  rw [hlen] at h2 h3
  norm_num at h2 h3
  exact ⟨h2, h3⟩

/-! ### Claim theorems: ranking -/

theorem pairwise_sortByCombinedDesc (l : List (String × ℚ × ℚ)) :
    (sortByCombinedDesc l).Pairwise (fun a b => b.2.1 ≤ a.2.1) := by
  have h := @List.sorted_mergeSort (String × ℚ × ℚ)
    (fun a b => decide (b.2.1 ≤ a.2.1))
    (fun a b c hab hbc => by
      simp only [decide_eq_true_eq] at *
      exact hbc.trans hab)
    (fun a b => by
      simp only [Bool.or_eq_true, decide_eq_true_eq]
      exact le_total b.2.1 a.2.1) l
  exact h.imp (fun hab => by simpa using hab)

theorem pairwise_sortByScoreDesc (l : List (String × ℝ)) :
    (sortByScoreDesc l).Pairwise (fun a b => b.2 ≤ a.2) := by
  have h := @List.sorted_mergeSort (String × ℝ)
    (fun a b => decide (b.2 ≤ a.2))
    (fun a b c hab hbc => by
      simp only [decide_eq_true_eq] at *
      exact hbc.trans hab)
    (fun a b => by
      simp only [Bool.or_eq_true, decide_eq_true_eq]
      exact le_total b.2 a.2) l
  exact h.imp (fun hab => by simpa using hab)

/-- C2 amended: every ranking call returns a list sorted in descending order
of its score component (the normalized lexical score for text_search, the
combined score for filter_by_emotion); equal-score entries keep the stable
sort's construction order, which is not in general ascending document id. -/
theorem C2_amended_results_sorted_descending :
    (∀ (sys : IRSys) (syn : String → List String) (q : String),
      (text_search sys syn q).Pairwise (fun a b => b.2 ≤ a.2)) ∧
    ∀ (sys : IRSys) (text_results : List (String × ℚ)) (emotion : String)
      (min_score : ℕ) (text_weight emotion_weight : ℚ),
      (filter_by_emotion sys text_results emotion min_score text_weight
        emotion_weight).Pairwise (fun a b => b.2.1 ≤ a.2.1) := by
  constructor
  · intro sys syn q
    unfold text_search text_search_scores
    by_cases h : process_query syn q = []
    · rw [if_pos h]
      exact List.Pairwise.nil
    · rw [if_neg h]
      exact pairwise_sortByScoreDesc _
  · intro sys text_results emotion min_score text_weight emotion_weight
    unfold filter_by_emotion
    exact pairwise_sortByCombinedDesc _

/-- Concrete system for the tie-order counterexample: no statistics, every
document carrying the all-zero emotion vector. -/
def sysC2 : IRSys :=
  { inverted_index := fun _ => none
    idf_scores := fun _ => none
    doc_lengths := fun _ => none
    emotion_data := fun _ => some (fun _ => 0)
    emotion_stats := fun _ => none
    doc_ids := [] }

/-- C2 counterexample: a filter_by_emotion call in which both candidates tie
at combined score 1 returns them in candidate order, "b" before "a",
although ascending document id order would put "a" first. -/
theorem C2_counterexample :
    filter_by_emotion sysC2 [("b", 1), ("a", 1)] "joy" 0 1 1 =
      [("b", 1, 0), ("a", 1, 0)] ∧ ("a" : String) < "b" := by
  constructor
  · have hneq : ¬([(("b" : String), (1 : ℚ)), ("a", 1)] = []) := by simp
    have hstats : sysC2.emotion_stats "joy" = none := rfl
    have h1 : candidateEntry sysC2 none "joy" 0 1 1 ("b", 1) = some ("b", 1, 0) := by
      norm_num [candidateEntry, sysC2, zScoreOf]
    have h2 : candidateEntry sysC2 none "joy" 0 1 1 ("a", 1) = some ("a", 1, 0) := by
      norm_num [candidateEntry, sysC2, zScoreOf]
    simp only [filter_by_emotion, hstats]
    rw [if_neg hneq]
    simp only [List.filterMap_cons, List.filterMap_nil, h1, h2]
    rw [sortByCombinedDesc]
    norm_num [List.mergeSort]
  · rw [String.lt_iff_toList_lt]
    decide

/-- C3: a candidate with an emotion record whose raw count passes min_score
appears in the filter_by_emotion output as the triple (doc, combined, z), in
which z is the guarded z-score of the candidate's density: the standardized
value (density - mean) / std when statistics with positive std exist for the
emotion, and exactly 0 otherwise (a total rational - never NaN or infinite);
the combined score is text_score * text_weight + max(0, z) * emotion_weight,
so a negative z is clamped and contributes exactly nothing, while the
returned triple retains the raw signed z. -/
theorem C3_z_guard_and_combined_score (sys : IRSys) (text_results : List (String × ℚ))
    (emotion : String) (min_score : ℕ) (text_weight emotion_weight : ℚ)
    (d : String) (ts : ℚ) (vec : String → ℕ)
    (hne : text_results ≠ []) (hc : (d, ts) ∈ text_results)
    (hv : sys.emotion_data d = some vec) (hmin : min_score ≤ vec emotion) :
    ∃ z : ℚ,
      (d, ts * text_weight + max 0 z * emotion_weight, z) ∈
        filter_by_emotion sys text_results emotion min_score text_weight emotion_weight ∧
      z = zScoreOf (sys.emotion_stats emotion)
            ((vec emotion : ℚ) / (((sys.doc_lengths d).getD 1 : ℕ) : ℚ)) ∧
      (∀ st : EStats, sys.emotion_stats emotion = some st → 0 < st.std →
        z = (((vec emotion : ℚ) / (((sys.doc_lengths d).getD 1 : ℕ) : ℚ)) - st.mean)
          / st.std) ∧
      (∀ st : EStats, sys.emotion_stats emotion = some st → ¬ 0 < st.std → z = 0) ∧
      (sys.emotion_stats emotion = none → z = 0) ∧
      (z < 0 → ts * text_weight + max 0 z * emotion_weight = ts * text_weight) := by
  refine ⟨zScoreOf (sys.emotion_stats emotion)
      ((vec emotion : ℚ) / (((sys.doc_lengths d).getD 1 : ℕ) : ℚ)),
    ?_, rfl, ?_, ?_, ?_, ?_⟩
  · unfold filter_by_emotion
    rw [if_neg hne, sortByCombinedDesc, List.mem_mergeSort]
    refine List.mem_filterMap.mpr ⟨(d, ts), hc, ?_⟩
    simp only [candidateEntry, hv, hmin, if_pos]
  · intro st hst hstd
    simp [zScoreOf, hst, hstd]
  · intro st hst hstd
    simp [zScoreOf, hst, hstd]
  · intro hst
    simp [zScoreOf, hst]
  · intro hz
    rw [max_eq_left hz.le]
    ring

/-- Emotion vector used by the concrete witnesses: joy count 2, everything
else 0. -/
def joyVec : String → ℕ := fun e => if e = "joy" then 2 else 0

/-- Concrete system for the C3 and C9 witnesses: document "a" has the joyVec
record and length 4, and the joy statistics are mean 1/4, std 1/4. -/
def sys3 : IRSys :=
  { inverted_index := fun _ => none
    idf_scores := fun _ => none
    doc_lengths := fun d => if d = "a" then some 4 else none
    emotion_data := fun d => if d = "a" then some joyVec else none
    emotion_stats := fun e => if e = "joy" then some ⟨1/4, 1/4⟩ else none
    doc_ids := [] }

/-- C3 witness: document "a" has density 1/2, z-score 1 and combined score
1 * 1 + max(0, 1) * 1 = 2. -/
theorem C3_witness :
    ("a", 2, 1) ∈ filter_by_emotion sys3 [("a", 1)] "joy" 0 1 1 := by
  obtain ⟨z, hmem, hz, -, -, -, -⟩ := C3_z_guard_and_combined_score sys3 [("a", 1)]
    "joy" 0 1 1 "a" 1 joyVec (by simp) (by simp) (by simp [sys3]) (Nat.zero_le _)
  have hz1 : z = 1 := by
    rw [hz]
    norm_num [zScoreOf, sys3, joyVec]
  rw [hz1] at hmem
  have hcomb : (1 : ℚ) * 1 + max 0 1 * 1 = 2 := by norm_num
  rw [hcomb] at hmem
  exact hmem

/-- Concrete system in which no document has an emotion record. -/
def sysC9 : IRSys :=
  { inverted_index := fun _ => none
    idf_scores := fun _ => none
    doc_lengths := fun _ => none
    emotion_data := fun _ => none
    emotion_stats := fun _ => none
    doc_ids := [] }

/-- C9 counterexample: the candidate ("x", 5) has no emotion record and
filter_by_emotion silently drops it - the output is empty, although the
claim requires "x" to still appear, scored text_score * text_weight. -/
theorem C9_counterexample :
    filter_by_emotion sysC9 [("x", 5)] "joy" 0 1 1 = [] := by
  simp [filter_by_emotion, candidateEntry, sortByCombinedDesc, sysC9, List.mergeSort]

/-- C9 amended: filter_by_emotion never raises (it is a total function) but
a candidate document without an emotion record is silently dropped: every
output entry carries a document with an emotion record, and a document
without one never appears in the output. -/
theorem C9_amended_no_record_is_dropped (sys : IRSys) (text_results : List (String × ℚ))
    (emotion : String) (min_score : ℕ) (text_weight emotion_weight : ℚ) :
    (∀ e ∈ filter_by_emotion sys text_results emotion min_score text_weight emotion_weight,
      ∃ vec, sys.emotion_data e.1 = some vec) ∧
    ∀ d : String, sys.emotion_data d = none →
      d ∉ (filter_by_emotion sys text_results emotion min_score text_weight
        emotion_weight).map Prod.fst := by
  have hmain : ∀ e ∈ filter_by_emotion sys text_results emotion min_score text_weight
      emotion_weight, ∃ vec, sys.emotion_data e.1 = some vec := by
    intro e he
    unfold filter_by_emotion at he
    rw [sortByCombinedDesc, List.mem_mergeSort] at he
    obtain ⟨p, -, hce⟩ := List.mem_filterMap.mp he
    cases hvd : sys.emotion_data p.1 with
    | none => simp [candidateEntry, hvd] at hce
    | some vec =>
        refine ⟨vec, ?_⟩
        simp only [candidateEntry, hvd] at hce
        by_cases hif : min_score ≤ vec emotion
        · rw [if_pos hif] at hce
          obtain rfl := Option.some_injective _ hce
          exact hvd
        · rw [if_neg hif] at hce
          cases hce
  refine ⟨hmain, fun d hd hdmem => ?_⟩
  obtain ⟨e, he, hfst⟩ := List.mem_map.mp hdmem
  obtain ⟨vec, hvec⟩ := hmain e he
  rw [hfst, hd] at hvec
  cases hvec

/-! ### Claim theorems: emotion scanning and statistics -/

theorem foldl_emotions_count (tokens : List String) (lex : String → List String)
    (l : List (ℕ × String)) (vec : String → ℕ) (e : String) :
    (l.foldl (fun vec p =>
      if lex p.2 = [] then vec
      else if isNegatedAt tokens p.1 then vec
      else fun e2 => if e2 ∈ lex p.2 then vec e2 + 1 else vec e2) vec) e =
      vec e + l.countP (fun p => decide (isNegatedAt tokens p.1 = false ∧ e ∈ lex p.2)) := by
  induction l generalizing vec with
  | nil => simp
  | cons a l ih =>
    rw [List.foldl_cons, ih, List.countP_cons]
    by_cases h1 : lex a.2 = []
    · simp [h1]
    · by_cases h2 : isNegatedAt tokens a.1
      · simp [h1, h2]
      · by_cases h3 : e ∈ lex a.2
        · simp only [h1, if_neg, h2, Bool.not_eq_true] at *
          simp [h1, h2, h3]
          omega
        · simp [h1, h2, h3]

/-- Tiny lexicon for the concrete checks: "joyful" carries the single tag
"joy", every other word carries none. -/
def exLex : String → List String := fun w => if w = "joyful" then ["joy"] else []

/-- C7: get_negation_aware_emotions gives every emotion e exactly the number
of token positions that carry the tag e and have no negation term in their
own LOOKBACK_WINDOW-token backward window - each position is decided
independently by isNegatedAt from its own fixed slice, with no state
propagated from earlier tokens and no reach past the window boundary; in
particular the segment "is not joyful" contributes nothing to joy while
"is joyful" contributes the full tag count 1. -/
theorem C7_negation_is_local_per_token :
    (∀ (lex : String → List String) (tokens : List String) (e : String),
      get_negation_aware_emotions lex tokens e =
        tokens.enum.countP (fun p =>
          decide (isNegatedAt tokens p.1 = false ∧ e ∈ lex p.2))) ∧
    get_negation_aware_emotions exLex ["is", "not", "joyful"] "joy" = 0 ∧
    get_negation_aware_emotions exLex ["is", "joyful"] "joy" = 1 := by
  refine ⟨fun lex tokens e => ?_, by decide, by decide⟩
  unfold get_negation_aware_emotions
  rw [foldl_emotions_count]
  omega

/-! ### Claim theorems: corpus statistics (4.5_z_score_generator.py) -/

theorem analyze_chunks_eq_filter_map (lex : String → List String)
    (corpus : List (String × List String)) :
    analyze_chunks lex corpus = (corpus.filter (fun p => hasEmotion lex p.2)).map
      (fun p => (p.1, get_negation_aware_emotions lex p.2)) := by
  unfold analyze_chunks
  induction corpus with
  | nil => rfl
  | cons a l ih =>
    rw [List.filterMap_cons, List.filter_cons]
    by_cases h : hasEmotion lex a.2 <;> simp [h, ih]

/-- C8 amended: the stored statistics are the population mean and standard
deviation of the emotion's density over exactly the segments with a nonzero
emotion record - analyze_chunks keeps no record for a segment whose whole
emotion vector is empty, and generate_z_scores only iterates the kept
records; within a kept record an emotion of count 0 still contributes
density 0, and the density list is nonempty so the mean is well defined. -/
theorem C8_amended_stats_over_recorded_segments (lex : String → List String)
    (corpus : List (String × List String)) (doc_lengths : String → Option ℕ)
    (emo : String) (hemo : emo ∈ EMOTIONS)
    (hne : corpus.filter (fun p => hasEmotion lex p.2) ≠ []) :
    analyze_chunks lex corpus = (corpus.filter (fun p => hasEmotion lex p.2)).map
      (fun p => (p.1, get_negation_aware_emotions lex p.2)) ∧
    generate_z_scores (analyze_chunks lex corpus) doc_lengths emo =
      some (npMean ((corpus.filter (fun p => hasEmotion lex p.2)).map
              (fun p => ((get_negation_aware_emotions lex p.2 emo : ℚ)) /
                (((doc_lengths p.1).getD 1 : ℕ) : ℚ))),
            npStd ((corpus.filter (fun p => hasEmotion lex p.2)).map
              (fun p => ((get_negation_aware_emotions lex p.2 emo : ℚ)) /
                (((doc_lengths p.1).getD 1 : ℕ) : ℚ)))) ∧
    0 < ((corpus.filter (fun p => hasEmotion lex p.2)).map
          (fun p => ((get_negation_aware_emotions lex p.2 emo : ℚ)) /
            (((doc_lengths p.1).getD 1 : ℕ) : ℚ))).length := by
  have heq := analyze_chunks_eq_filter_map lex corpus
  have hdens : densities (analyze_chunks lex corpus) doc_lengths emo =
      (corpus.filter (fun p => hasEmotion lex p.2)).map
        (fun p => ((get_negation_aware_emotions lex p.2 emo : ℚ)) /
          (((doc_lengths p.1).getD 1 : ℕ) : ℚ)) := by
    rw [densities, heq, List.map_map]
    rfl
  refine ⟨heq, ?_, ?_⟩
  · rw [generate_z_scores, if_pos hemo, hdens]
  · rw [List.length_map]
    exact List.length_pos.mpr hne

/-- Two-segment corpus for the C8 results: segment "a" carries one joyful
token, segment "b" carries none. -/
def corpusC8 : List (String × List String) := [("a", ["joyful"]), ("b", ["rock"])]

/-- C8 amended witness: the two-segment corpus, emotion "joy". -/
theorem C8_amended_witness :
    generate_z_scores (analyze_chunks exLex corpusC8)
        (build_index corpusC8).doc_lengths "joy" =
      some (npMean ((corpusC8.filter (fun p => hasEmotion exLex p.2)).map
              (fun p => ((get_negation_aware_emotions exLex p.2 "joy" : ℚ)) /
                ((((build_index corpusC8).doc_lengths p.1).getD 1 : ℕ) : ℚ))),
            npStd ((corpusC8.filter (fun p => hasEmotion exLex p.2)).map
              (fun p => ((get_negation_aware_emotions exLex p.2 "joy" : ℚ)) /
                ((((build_index corpusC8).doc_lengths p.1).getD 1 : ℕ) : ℚ)))) :=
  (C8_amended_stats_over_recorded_segments exLex corpusC8
    (build_index corpusC8).doc_lengths "joy" (by decide) (by decide)).2.1

/-- C8 counterexample: segment "b" has an empty emotion vector, is dropped
from the emotion results, and so from the statistics population: the stored
mean joy density is 1 (over the single kept segment) although the population
mean over every segment of the corpus, as the claim states it, is 1/2. -/
theorem C8_counterexample :
    generate_z_scores (analyze_chunks exLex corpusC8)
        (build_index corpusC8).doc_lengths "joy" = some (1, 0) ∧
    npMean (specDensitiesAllSegments exLex corpusC8
        (build_index corpusC8).doc_lengths "joy") = 1 / 2 ∧
    (1 : ℝ) ≠ 1 / 2 := by
  have hch : analyze_chunks exLex corpusC8 =
      [("a", get_negation_aware_emotions exLex ["joyful"])] := rfl
  have hget : get_negation_aware_emotions exLex ["joyful"] "joy" = 1 := by decide
  have hlena : (build_index corpusC8).doc_lengths "a" = some 1 := by decide
  have hdens : densities (analyze_chunks exLex corpusC8)
      (build_index corpusC8).doc_lengths "joy" = [1] := by
    rw [hch, densities, List.map_cons, List.map_nil]
    norm_num [hget, hlena]
  refine ⟨?_, ?_, by norm_num⟩
  · rw [generate_z_scores, if_pos (by decide : ("joy" : String) ∈ EMOTIONS), hdens]
    have hmean : npMean [1] = 1 := by
      rw [npMean]
      norm_num
    have hstd : npStd [1] = 0 := by
      rw [npStd, hmean]
      norm_num
    rw [hmean, hstd]
  · have hgetb : get_negation_aware_emotions exLex ["rock"] "joy" = 0 := by decide
    have hla : ((((build_index [("a", ["joyful"]), ("b", ["rock"])]).doc_lengths
        "a").getD 1) ⊔ 1) = 1 := by decide
    have hlb : ((((build_index [("a", ["joyful"]), ("b", ["rock"])]).doc_lengths
        "b").getD 1) ⊔ 1) = 1 := by decide
    have h2 : specDensitiesAllSegments exLex corpusC8
        (build_index corpusC8).doc_lengths "joy" = [1, 0] := by
      rw [specDensitiesAllSegments, corpusC8, List.map_cons, List.map_cons, List.map_nil]
      norm_num [hget, hgetb, hla, hlb]
    rw [h2, npMean]
    norm_num

/-! ### Claim theorems: shared normalization rule (C1) -/

/-- C1 counterexample: on the input "don't" the build-time pipeline (with the
modelled word_tokenize) produces ["do"] while the query-time tokenization of
process_query produces ["don", "t"]: the two normalization rules are not one
shared rule and tokenize this input differently. -/
theorem C1_counterexample :
    process_text_pipeline nltkWordTokenize "don't" = ["do"] ∧
    processQueryRaw "don't" = ["don", "t"] ∧
    process_text_pipeline nltkWordTokenize "don't" ≠ processQueryRaw "don't" := by
  refine ⟨by decide, by decide, by decide⟩

/-- C1 amended: the query-time tokenization of process_query is a second,
separate implementation (an ASCII lowercase-letter regex over the lowered
string), not the build-time rule of process_text_pipeline: for any tokenizer
with the documented Treebank contraction behavior on "don't", the build
pipeline emits ["do"] where the query tokenizer emits ["don", "t"], so the
two rules disagree on that input. -/
theorem C1_amended_two_tokenization_rules_diverge (tok : String → List String)
    (h : tok "don't" = ["do", "n't"]) :
    process_text_pipeline tok "don't" = ["do"] ∧
    processQueryRaw "don't" = ["don", "t"] ∧
    process_text_pipeline tok "don't" ≠ processQueryRaw "don't" := by
  have h1 : process_text_pipeline tok "don't" = ["do"] := by
    unfold process_text_pipeline
    rw [h]
    decide
  refine ⟨h1, by decide, ?_⟩
  rw [h1]
  decide

/-- C1 witness: the modelled word_tokenize realizes the hypothesis. -/
theorem C1_witness :
    nltkWordTokenize "don't" = ["do", "n't"] ∧
    process_text_pipeline nltkWordTokenize "don't" ≠ processQueryRaw "don't" :=
  ⟨by decide, (C1_amended_two_tokenization_rules_diverge nltkWordTokenize (by decide)).2.2⟩
